import Mathlib

/-!
Verification of the concurrency & ledger coordination layer of the
cafe-arcade bot.

The development shallowly embeds:
  * `src/db/repo/economy_repo.py` (`EconomyRepository.get_balance`,
    `EconomyRepository.apply_transaction`) over an explicit relational
    state `EconDB`;
  * `src/db/connection.py` (`Database.transaction`: rollback on any
    exception, re-raise) as an explicit commit-or-rollback wrapper;
  * `src/db/repo/games_repo.py` (`get_active_session`,
    `upsert_active_session`, `end_session`, `end_active_in_location`)
    over a session-table state `GamesDB`, with SQLite's tri-valued
    `IS` / `=` comparison on the nullable `thread_id` column modelled
    explicitly;
  * `src/services/leaderboard_publisher.py` (`schedule_refresh`,
    `refresh_now` and the debounce `runner`) as a timed cancel-and-
    reschedule state machine plus an explicit exception-flow model.

SQL tables are lists of rows in insertion order; `fetchone`/`LIMIT 1`
is `List.find?` (first matching row); `datetime('now')` is an explicit
`now : Nat` argument threaded into every mutating call.
-/

namespace CafeArcade

/-! ## Ledger state (tables `bean_accounts`, `bean_transactions`) -/

/-- One row of `bean_transactions`: columns `user_id`, `delta`, `reason`,
`game_key`, `metadata` as inserted by `apply_transaction`. -/
structure TxnRow where
  user_id : Int
  delta : Int
  reason : String
  game_key : Option String
  metadata : Option String
deriving Repr, DecidableEq

/-- The ledger database: `bean_accounts` rows `(user_id, balance)` keyed by
`user_id`, and the append-only `bean_transactions` table, in insertion order. -/
structure EconDB where
  accounts : List (Int × Int)
  transactions : List TxnRow
deriving Repr, DecidableEq

/-- Embeds `SELECT balance FROM bean_accounts WHERE user_id = ?` with
`fetchone`: the first row for the key, if any. -/
def findAccount (db : EconDB) (uid : Int) : Option Int :=
  (db.accounts.find? (fun a => a.1 == uid)).map (fun a => a.2)

/-- Embeds `INSERT OR IGNORE INTO bean_accounts (user_id, balance) VALUES (?, 0)`:
a no-op when a row for the key exists, otherwise a new row with balance 0. -/
def insertOrIgnoreAccount (db : EconDB) (uid : Int) : EconDB :=
  if (db.accounts.find? (fun a => a.1 == uid)).isSome then db
  else { db with accounts := db.accounts ++ [(uid, 0)] }

/-- Embeds `INSERT INTO bean_transactions (user_id, delta, reason, game_key, metadata)
VALUES (?, ?, ?, ?, ?)`. -/
def insertTxn (db : EconDB) (uid delta : Int) (reason : String)
    (gk md : Option String) : EconDB :=
  { db with transactions := db.transactions ++ [⟨uid, delta, reason, gk, md⟩] }

/-- Embeds `UPDATE bean_accounts SET balance = balance + ? WHERE user_id = ?`
(the `updated_at` column is not modelled in the ledger state). -/
def updateBalance (db : EconDB) (uid delta : Int) : EconDB :=
  { db with accounts :=
      db.accounts.map (fun a => if a.1 == uid then (a.1, a.2 + delta) else a) }

/-- Embeds `EconomyRepository.get_balance` (economy_repo.py lines 12-23):
fetch the row; if absent, `INSERT OR IGNORE` a zero-balance row and return 0,
else return the stored balance. -/
def get_balance (db : EconDB) (uid : Int) : EconDB × Int :=
  match findAccount db uid with
  | none => (insertOrIgnoreAccount db uid, 0)
  | some b => (db, b)

/-- Embeds `EconomyRepository.apply_transaction` (economy_repo.py lines 25-69),
the statements issued inside `self._db.transaction()` in order: ensure the
account row, append the transaction row, add `delta` to the balance, read the
balance back and return it (`0` if the row were absent, per the final
`if row else 0`). -/
def apply_transaction (db : EconDB) (uid delta : Int) (reason : String)
    (gk md : Option String) : EconDB × Int :=
  let db1 := insertOrIgnoreAccount db uid
  let db2 := insertTxn db1 uid delta reason gk md
  let db3 := updateBalance db2 uid delta
  (db3, (findAccount db3 uid).getD 0)

/-- Embeds `apply_transaction` run under `Database.transaction`
(connection.py lines 88-103) with a fault injected at statement `i` when
`failAt = some i` (statements numbered 0-3 in source order).  The context
manager commits the final state on success and on any exception rolls back —
the committed state is the initial one — and re-raises, here `Except.error`. -/
def apply_transaction_tx (failAt : Option Nat) (db : EconDB) (uid delta : Int)
    (reason : String) (gk md : Option String) : EconDB × Except String Int :=
  let inner : Except String (EconDB × Int) :=
    if failAt = some 0 then Except.error "statement 0 raised" else
    let db1 := insertOrIgnoreAccount db uid
    if failAt = some 1 then Except.error "statement 1 raised" else
    let db2 := insertTxn db1 uid delta reason gk md
    if failAt = some 2 then Except.error "statement 2 raised" else
    let db3 := updateBalance db2 uid delta
    if failAt = some 3 then Except.error "statement 3 raised" else
    Except.ok (db3, (findAccount db3 uid).getD 0)
  match inner with
  | Except.ok (dbFinal, bal) => (dbFinal, Except.ok bal)
  | Except.error e => (db, Except.error e)

/-- The committed transaction rows of one account, in insertion order. -/
def txnsFor (db : EconDB) (uid : Int) : List TxnRow :=
  db.transactions.filter (fun t => t.user_id == uid)

/-- Sum of the deltas of one account's committed transaction rows. -/
def sumDeltas (db : EconDB) (uid : Int) : Int :=
  ((txnsFor db uid).map (fun t => t.delta)).sum

/-- Number of `bean_accounts` rows for one key (the PRIMARY KEY makes the
real table hold at most one; the model counts to state that). -/
def countAccounts (db : EconDB) (uid : Int) : Nat :=
  db.accounts.countP (fun a => a.1 == uid)

/-- The ledger invariant: every account's materialized balance (0 for an
absent row) equals the sum of the deltas of its committed transactions. -/
def ledgerInv (db : EconDB) : Prop :=
  ∀ uid : Int, (findAccount db uid).getD 0 = sumDeltas db uid

/-! ## Generic list lemmas used throughout -/

theorem find?_append_of_none {α : Type} (p : α → Bool) (l1 l2 : List α)
    (h : l1.find? p = none) : (l1 ++ l2).find? p = l2.find? p := by
  rw [List.find?_append, h]
  rfl

theorem find?_append_of_some {α : Type} (p : α → Bool) (l1 l2 : List α) (a : α)
    (h : l1.find? p = some a) : (l1 ++ l2).find? p = some a := by
  rw [List.find?_append, h]
  rfl

theorem find?_map_of_pred_preserved {α : Type} (p : α → Bool) (f : α → α)
    (hf : ∀ a, p (f a) = p a) (l : List α) :
    (l.map f).find? p = (l.find? p).map f := by
  have hpf : p ∘ f = p := funext hf
  rw [List.find?_map, hpf]

/-! ## Ledger lemmas -/

theorem findAccount_eq_none_iff (db : EconDB) (uid : Int) :
    findAccount db uid = none ↔ db.accounts.find? (fun a => a.1 == uid) = none := by
  unfold findAccount
  cases db.accounts.find? (fun a => a.1 == uid) <;> simp

theorem findAccount_insertOrIgnore_self (db : EconDB) (uid : Int) :
    findAccount (insertOrIgnoreAccount db uid) uid
      = some ((findAccount db uid).getD 0) := by
  unfold insertOrIgnoreAccount
  cases h : db.accounts.find? (fun a => a.1 == uid) with
  | some a =>
    simp only [h, Option.isSome_some, if_true]
    unfold findAccount
    rw [h]
    rfl
  | none =>
    simp only [h, Option.isSome_none, Bool.false_eq_true, if_false]
    unfold findAccount
    simp only []
    rw [find?_append_of_none _ _ _ h, h]
    simp [List.find?]

theorem findAccount_insertOrIgnore_other (db : EconDB) (uid u : Int) (hu : u ≠ uid) :
    findAccount (insertOrIgnoreAccount db uid) u = findAccount db u := by
  unfold insertOrIgnoreAccount
  cases h : db.accounts.find? (fun a => a.1 == uid) with
  | some a => simp [h]
  | none =>
    simp only [h, Option.isSome_none, Bool.false_eq_true, if_false]
    unfold findAccount
    cases hu2 : db.accounts.find? (fun a => a.1 == u) with
    | some b => rw [find?_append_of_some _ _ _ _ hu2]
    | none =>
      rw [find?_append_of_none _ _ _ hu2]
      have : ((uid : Int) == u) = false := by
        simpa using fun hc => hu hc.symm
      simp [List.find?, this]

theorem findAccount_insertTxn (db : EconDB) (uid delta : Int) (reason : String)
    (gk md : Option String) (u : Int) :
    findAccount (insertTxn db uid delta reason gk md) u = findAccount db u := rfl

theorem findAccount_updateBalance_self (db : EconDB) (uid delta : Int) :
    findAccount (updateBalance db uid delta) uid
      = (findAccount db uid).map (fun b => b + delta) := by
  unfold findAccount updateBalance
  simp only []
  rw [find?_map_of_pred_preserved (fun a => a.1 == uid)
      (fun a => if a.1 == uid then (a.1, a.2 + delta) else a)
      (by intro a; by_cases h : (a.1 == uid) = true <;> simp [h])]
  cases h : db.accounts.find? (fun a => a.1 == uid) with
  | none => rfl
  | some a =>
    have hp := List.find?_some h
    have ha : a.1 = uid := by simpa using hp
    simp [ha]

theorem findAccount_updateBalance_other (db : EconDB) (uid delta u : Int) (hu : u ≠ uid) :
    findAccount (updateBalance db uid delta) u = findAccount db u := by
  unfold findAccount updateBalance
  simp only []
  rw [find?_map_of_pred_preserved (fun a => a.1 == u)
      (fun a => if a.1 == uid then (a.1, a.2 + delta) else a)
      (by intro a; by_cases h : (a.1 == uid) = true <;> simp [h])]
  cases h : db.accounts.find? (fun a => a.1 == u) with
  | none => rfl
  | some a =>
    have hp := List.find?_some h
    have ha : a.1 = u := by simpa using hp
    simp [ha, hu]

theorem txnsFor_insertOrIgnore (db : EconDB) (uid u : Int) :
    txnsFor (insertOrIgnoreAccount db uid) u = txnsFor db u := by
  unfold insertOrIgnoreAccount
  split <;> rfl

theorem txnsFor_updateBalance (db : EconDB) (uid delta : Int) (u : Int) :
    txnsFor (updateBalance db uid delta) u = txnsFor db u := rfl

theorem txnsFor_insertTxn_self (db : EconDB) (uid delta : Int) (reason : String)
    (gk md : Option String) :
    txnsFor (insertTxn db uid delta reason gk md) uid
      = txnsFor db uid ++ [⟨uid, delta, reason, gk, md⟩] := by
  unfold txnsFor insertTxn
  simp [List.filter_append]

theorem txnsFor_insertTxn_other (db : EconDB) (uid delta : Int) (reason : String)
    (gk md : Option String) (u : Int) (hu : u ≠ uid) :
    txnsFor (insertTxn db uid delta reason gk md) u = txnsFor db u := by
  unfold txnsFor insertTxn
  have : ((uid : Int) == u) = false := by
    simpa using fun hc => hu hc.symm
  simp [List.filter_append, this]

theorem apply_transaction_state (db : EconDB) (uid delta : Int) (reason : String)
    (gk md : Option String) :
    (apply_transaction db uid delta reason gk md).1
      = updateBalance (insertTxn (insertOrIgnoreAccount db uid) uid delta reason gk md)
          uid delta := rfl

theorem apply_txnsFor_self (db : EconDB) (uid delta : Int) (reason : String)
    (gk md : Option String) :
    txnsFor (apply_transaction db uid delta reason gk md).1 uid
      = txnsFor db uid ++ [⟨uid, delta, reason, gk, md⟩] := by
  rw [apply_transaction_state, txnsFor_updateBalance, txnsFor_insertTxn_self,
    txnsFor_insertOrIgnore]

theorem apply_txnsFor_other (db : EconDB) (uid delta : Int) (reason : String)
    (gk md : Option String) (u : Int) (hu : u ≠ uid) :
    txnsFor (apply_transaction db uid delta reason gk md).1 u = txnsFor db u := by
  rw [apply_transaction_state, txnsFor_updateBalance,
    txnsFor_insertTxn_other _ _ _ _ _ _ _ hu, txnsFor_insertOrIgnore]

theorem apply_findAccount_self (db : EconDB) (uid delta : Int) (reason : String)
    (gk md : Option String) :
    findAccount (apply_transaction db uid delta reason gk md).1 uid
      = some ((findAccount db uid).getD 0 + delta) := by
  rw [apply_transaction_state, findAccount_updateBalance_self, findAccount_insertTxn,
    findAccount_insertOrIgnore_self]
  rfl

theorem apply_findAccount_other (db : EconDB) (uid delta : Int) (reason : String)
    (gk md : Option String) (u : Int) (hu : u ≠ uid) :
    findAccount (apply_transaction db uid delta reason gk md).1 u = findAccount db u := by
  rw [apply_transaction_state, findAccount_updateBalance_other _ _ _ _ hu,
    findAccount_insertTxn, findAccount_insertOrIgnore_other _ _ _ hu]

theorem apply_ret (db : EconDB) (uid delta : Int) (reason : String)
    (gk md : Option String) :
    (apply_transaction db uid delta reason gk md).2
      = (findAccount db uid).getD 0 + delta := by
  show (findAccount (apply_transaction db uid delta reason gk md).1 uid).getD 0
      = (findAccount db uid).getD 0 + delta
  rw [apply_findAccount_self]
  rfl

theorem sumDeltas_apply_self (db : EconDB) (uid delta : Int) (reason : String)
    (gk md : Option String) :
    sumDeltas (apply_transaction db uid delta reason gk md).1 uid
      = sumDeltas db uid + delta := by
  unfold sumDeltas
  rw [apply_txnsFor_self]
  simp

theorem sumDeltas_apply_other (db : EconDB) (uid delta : Int) (reason : String)
    (gk md : Option String) (u : Int) (hu : u ≠ uid) :
    sumDeltas (apply_transaction db uid delta reason gk md).1 u = sumDeltas db u := by
  unfold sumDeltas
  rw [apply_txnsFor_other _ _ _ _ _ _ _ hu]

/-! ## Concrete ledger scenario: three +5 rewards on a fresh account -/

/-- The empty ledger database. -/
def econDB0 : EconDB := { accounts := [], transactions := [] }

/-- One `ApplyTransaction(A, +5, "reward")` call, keeping the state. -/
def applyReward (db : EconDB) (uid : Int) : EconDB :=
  (apply_transaction db uid 5 "reward" none none).1

/-- The ledger after three serialized +5 reward transactions on account 1. -/
def econDB3 : EconDB := applyReward (applyReward (applyReward econDB0 1) 1) 1

/-- Claim C1: `apply_transaction` ensures the account row, appends exactly one
transaction row carrying `delta`, adds `delta` to the balance, and returns the
balance read back from the post-state of the same atomic unit; an account
starting at balance 0 that receives three +5 transactions ends at balance 15
with exactly 3 transaction rows, and `get_balance` then reads 15. -/
theorem apply_transaction_spec (db : EconDB) (uid delta : Int) (reason : String)
    (gk md : Option String) :
    txnsFor (apply_transaction db uid delta reason gk md).1 uid
      = txnsFor db uid ++ [⟨uid, delta, reason, gk, md⟩] ∧
    findAccount (apply_transaction db uid delta reason gk md).1 uid
      = some ((findAccount db uid).getD 0 + delta) ∧
    (apply_transaction db uid delta reason gk md).2
      = (findAccount db uid).getD 0 + delta ∧
    (apply_transaction db uid delta reason gk md).2
      = (findAccount (apply_transaction db uid delta reason gk md).1 uid).getD 0 ∧
    findAccount econDB3 1 = some 15 ∧
    (txnsFor econDB3 1).length = 3 ∧
    (get_balance econDB3 1).2 = 15 := by
  refine ⟨apply_txnsFor_self db uid delta reason gk md,
    apply_findAccount_self db uid delta reason gk md,
    apply_ret db uid delta reason gk md, rfl, ?_, ?_, ?_⟩ <;> decide

/-- Claim C2: the invariant `balance = Σ delta` over every account's committed
transactions is preserved by `get_balance` (which may create a zero-balance
account row with no transactions) and by `apply_transaction` (which appends a
transaction row and adds the same delta to the balance in one atomic unit). -/
theorem ledger_invariant_preserved (db : EconDB) (uid uid2 delta : Int)
    (reason : String) (gk md : Option String) (h : ledgerInv db) :
    ledgerInv (get_balance db uid).1 ∧
    ledgerInv (apply_transaction db uid2 delta reason gk md).1 := by
  constructor
  · unfold get_balance
    cases hf : findAccount db uid with
    | some b => exact h
    | none =>
      intro u
      have htx : sumDeltas (insertOrIgnoreAccount db uid) u = sumDeltas db u := by
        unfold sumDeltas
        rw [txnsFor_insertOrIgnore]
      rw [htx]
      by_cases hcase : u = uid
      · subst hcase
        rw [findAccount_insertOrIgnore_self, hf]
        have hu := h u
        rw [hf] at hu
        simpa using hu
      · rw [findAccount_insertOrIgnore_other _ _ _ hcase]
        exact h u
  · intro u
    by_cases hcase : u = uid2
    · subst hcase
      rw [apply_findAccount_self, sumDeltas_apply_self]
      have := h u
      simp [this]
    · rw [apply_findAccount_other _ _ _ _ _ _ _ hcase,
        sumDeltas_apply_other _ _ _ _ _ _ _ hcase]
      exact h u

/-- Claim C2 witness: the invariant preservation applied to the empty ledger
database, whose invariant holds trivially. -/
theorem ledger_invariant_preserved_witness :
    ledgerInv (get_balance econDB0 1).1 ∧
    ledgerInv (apply_transaction econDB0 2 7 "reward" none none).1 :=
  ledger_invariant_preserved econDB0 1 2 7 "reward" none none (fun _ => rfl)

/-- Claim C3: if any statement inside the `apply_transaction` atomic unit
raises, the committed state is exactly the pre-call state (account rows,
balances and transaction table untouched) and the exception propagates to the
caller; when nothing raises, the unit commits exactly the writes of the pure
`apply_transaction` and returns its balance. -/
theorem apply_transaction_atomicity :
    (∀ (i : Nat) (db : EconDB) (uid delta : Int) (reason : String)
        (gk md : Option String), i < 4 →
      (apply_transaction_tx (some i) db uid delta reason gk md).1 = db ∧
      ∃ e, (apply_transaction_tx (some i) db uid delta reason gk md).2
            = Except.error e) ∧
    (∀ (db : EconDB) (uid delta : Int) (reason : String) (gk md : Option String),
      apply_transaction_tx none db uid delta reason gk md
        = ((apply_transaction db uid delta reason gk md).1,
           Except.ok (apply_transaction db uid delta reason gk md).2)) := by
  constructor
  · intro i db uid delta reason gk md hi
    interval_cases i <;>
      exact ⟨rfl, _, rfl⟩
  · intro db uid delta reason gk md
    rfl

/-- Claim C3 witness: a fault injected at the balance-update statement rolls
back the whole unit on a concrete ledger state and surfaces the error. -/
theorem apply_transaction_atomicity_witness :
    (apply_transaction_tx (some 2) econDB0 1 5 "reward" none none).1 = econDB0 ∧
    ∃ e, (apply_transaction_tx (some 2) econDB0 1 5 "reward" none none).2
          = Except.error e :=
  apply_transaction_atomicity.1 2 econDB0 1 5 "reward" none none (by decide)

theorem get_balance_eq_of_some (db : EconDB) (uid b : Int)
    (h : findAccount db uid = some b) : get_balance db uid = (db, b) := by
  unfold get_balance
  rw [h]

/-- Claim C8: on a never-seen account `get_balance` returns 0 and creates the
account row with balance 0; a second call returns the stored balance, leaves
the state untouched and creates no duplicate row; on an existing account it
returns the stored balance without any write. -/
theorem get_balance_spec :
    (∀ (db : EconDB) (uid : Int), findAccount db uid = none →
      (get_balance db uid).2 = 0 ∧
      findAccount (get_balance db uid).1 uid = some 0 ∧
      countAccounts (get_balance db uid).1 uid = 1 ∧
      get_balance (get_balance db uid).1 uid = ((get_balance db uid).1, 0)) ∧
    (∀ (db : EconDB) (uid b : Int), findAccount db uid = some b →
      get_balance db uid = (db, b)) := by
  constructor
  · intro db uid h
    have hfind : db.accounts.find? (fun a => a.1 == uid) = none :=
      (findAccount_eq_none_iff db uid).mp h
    have hstate : (get_balance db uid).1 = insertOrIgnoreAccount db uid := by
      unfold get_balance
      rw [h]
    have hself : findAccount (get_balance db uid).1 uid = some 0 := by
      rw [hstate, findAccount_insertOrIgnore_self, h]
      rfl
    refine ⟨by unfold get_balance; rw [h], hself, ?_, ?_⟩
    · rw [hstate]
      unfold insertOrIgnoreAccount countAccounts
      rw [hfind]
      simp only [Option.isSome_none, Bool.false_eq_true, if_false]
      rw [List.countP_append]
      have hzero : db.accounts.countP (fun a => a.1 == uid) = 0 := by
        rw [List.countP_eq_zero]
        intro a ha hpa
        exact absurd (List.find?_eq_none.mp hfind a ha) (by simp [hpa])
      rw [hzero]
      simp [List.countP, List.countP.go]
    · exact get_balance_eq_of_some _ _ _ hself
  · intro db uid b h
    exact get_balance_eq_of_some db uid b h

/-- Claim C8 witness: `get_balance` on account 7 of the empty database. -/
theorem get_balance_spec_witness :
    (get_balance econDB0 7).2 = 0 ∧
    findAccount (get_balance econDB0 7).1 7 = some 0 ∧
    countAccounts (get_balance econDB0 7).1 7 = 1 ∧
    get_balance (get_balance econDB0 7).1 7 = ((get_balance econDB0 7).1, 0) :=
  get_balance_spec.1 econDB0 7 rfl

/-! ## Session store (table `active_game_sessions`, games_repo.py) -/

/-- One row of `active_game_sessions`.  `state` holds the serialized opaque
payload (`json.dumps` output); `created_at`/`updated_at` are `datetime('now')`
values modelled as abstract instants. -/
structure SessionRow where
  id : String
  platform : String
  location_id : String
  thread_id : Option String
  game_key : String
  status : String
  state : String
  created_at : Nat
  updated_at : Nat
  expires_at : Option String
deriving Repr, DecidableEq

/-- The sessions database, rows in insertion order. -/
structure GamesDB where
  sessions : List SessionRow
deriving Repr, DecidableEq

/-- SQLite `col IS ?`: null-safe comparison, true when both are NULL or both
are equal values. -/
def sqlIsCmp (col q : Option String) : Bool := col == q

/-- SQLite `col = ?`: three-valued equality; a WHERE clause keeps the row only
when the comparison is true, and NULL on either side is never true. -/
def sqlEqCmp (col q : Option String) : Bool :=
  match col, q with
  | some x, some y => x == y
  | _, _ => false

/-- The `(thread_id IS ? OR thread_id = ?)` disjunct of games_repo.py, with the
same query parameter bound to both placeholders. -/
def threadMatch (col q : Option String) : Bool := sqlIsCmp col q || sqlEqCmp col q

/-- The WHERE clause shared by `get_active_session` and
`end_active_in_location`: scope columns match and `status = 'active'`. -/
def matchesScopeActive (r : SessionRow) (p l : String) (t : Option String)
    (g : String) : Bool :=
  r.platform == p && r.location_id == l && threadMatch r.thread_id t &&
    r.game_key == g && r.status == "active"

/-- Embeds `GamesRepository.get_active_session` (games_repo.py lines 14-49):
`fetchone` with `LIMIT 1` returns the first matching row, copied field by field
into the returned record; `None` when no row matches. -/
def get_active_session (db : GamesDB) (p l : String) (t : Option String)
    (g : String) : Option SessionRow :=
  db.sessions.find? (fun r => matchesScopeActive r p l t g)

/-- Embeds `GamesRepository.upsert_active_session` (games_repo.py lines 51-75):
`INSERT ... ON CONFLICT(id) DO UPDATE SET status='active', state=excluded.state,
updated_at=datetime('now'), expires_at=excluded.expires_at`.  On conflict only
those four columns change; otherwise a fresh fully-populated active row is
inserted. -/
def upsert_active_session (db : GamesDB) (now : Nat) (sid p l : String)
    (t : Option String) (g state_json : String) (expires : Option String) :
    GamesDB :=
  if (db.sessions.find? (fun r => r.id == sid)).isSome then
    { sessions := db.sessions.map (fun r =>
        if r.id == sid then
          { r with status := "active", state := state_json,
                   updated_at := now, expires_at := expires }
        else r) }
  else
    { sessions := db.sessions ++
        [⟨sid, p, l, t, g, "active", state_json, now, now, expires⟩] }

/-- Embeds `GamesRepository.end_session` (games_repo.py lines 77-85):
`UPDATE active_game_sessions SET status = ?, updated_at = datetime('now')
WHERE id = ?`. -/
def end_session (db : GamesDB) (now : Nat) (sid status : String) : GamesDB :=
  { sessions := db.sessions.map (fun r =>
      if r.id == sid then { r with status := status, updated_at := now } else r) }

/-- Embeds `GamesRepository.end_active_in_location` (games_repo.py lines
87-112): bulk `UPDATE` of every active row matching the scope, returning the
`rowcount`. -/
def end_active_in_location (db : GamesDB) (now : Nat) (p l : String)
    (t : Option String) (g status : String) : GamesDB × Nat :=
  ({ sessions := db.sessions.map (fun r =>
      if matchesScopeActive r p l t g then
        { r with status := status, updated_at := now }
      else r) },
   db.sessions.countP (fun r => matchesScopeActive r p l t g))

/-- First row with the given `id` (the table's PRIMARY KEY). -/
def findById (db : GamesDB) (sid : String) : Option SessionRow :=
  db.sessions.find? (fun r => r.id == sid)

/-- Number of rows with the given `id`. -/
def countById (db : GamesDB) (sid : String) : Nat :=
  db.sessions.countP (fun r => r.id == sid)

/-! ## Session store lemmas -/

theorem findById_map_of_id_preserved (db : GamesDB) (f : SessionRow → SessionRow)
    (hf : ∀ r, (f r).id = r.id) (sid : String) :
    findById { sessions := db.sessions.map f } sid = (findById db sid).map f := by
  unfold findById
  exact find?_map_of_pred_preserved _ f (fun r => by rw [hf]) db.sessions

theorem countById_map_of_id_preserved (db : GamesDB) (f : SessionRow → SessionRow)
    (hf : ∀ r, (f r).id = r.id) (sid : String) :
    countById { sessions := db.sessions.map f } sid = countById db sid := by
  unfold countById
  rw [List.countP_map]
  congr 1
  funext r
  simp [hf r]

theorem upsert_preserves_id (now : Nat) (sid state_json : String)
    (expires : Option String) (r : SessionRow) :
    ((fun r => if r.id == sid then
        ({ r with status := "active", state := state_json,
                  updated_at := now, expires_at := expires } : SessionRow)
      else r) r).id = r.id := by
  by_cases h : (r.id == sid) = true <;> simp [h]

theorem findById_upsert_conflict (db : GamesDB) (now : Nat) (sid p l : String)
    (t : Option String) (g state_json : String) (expires : Option String)
    (r : SessionRow) (h : findById db sid = some r) :
    findById (upsert_active_session db now sid p l t g state_json expires) sid
      = some { r with status := "active", state := state_json,
                      updated_at := now, expires_at := expires } := by
  have h' : db.sessions.find? (fun r => r.id == sid) = some r := h
  have hid : r.id = sid := by simpa using List.find?_some h'
  unfold upsert_active_session
  have hsome : (db.sessions.find? (fun r => r.id == sid)).isSome = true := by
    rw [h']
    rfl
  rw [if_pos hsome]
  rw [findById_map_of_id_preserved db _ (upsert_preserves_id now sid state_json expires) sid,
    h]
  simp [hid]

theorem findById_upsert_fresh (db : GamesDB) (now : Nat) (sid p l : String)
    (t : Option String) (g state_json : String) (expires : Option String)
    (h : findById db sid = none) :
    findById (upsert_active_session db now sid p l t g state_json expires) sid
      = some ⟨sid, p, l, t, g, "active", state_json, now, now, expires⟩ := by
  unfold upsert_active_session
  have hnone : (db.sessions.find? (fun r => r.id == sid)).isSome = false := by
    unfold findById at h
    rw [h]
    rfl
  rw [if_neg (by simp [hnone])]
  unfold findById
  rw [find?_append_of_none _ _ _ h]
  simp [List.find?]

theorem countById_eq_zero_of_none (db : GamesDB) (sid : String)
    (h : db.sessions.find? (fun r => r.id == sid) = none) :
    countById db sid = 0 := by
  unfold countById
  rw [List.countP_eq_zero]
  intro r hr
  have := List.find?_eq_none.mp h r hr
  simpa using this

theorem one_le_countById_of_some (db : GamesDB) (sid : String) (r : SessionRow)
    (h : db.sessions.find? (fun r => r.id == sid) = some r) :
    1 ≤ countById db sid := by
  unfold countById
  have hm := List.mem_of_find?_eq_some h
  have hp := List.find?_some h
  exact List.countP_pos_iff.mpr ⟨r, hm, hp⟩

theorem countById_upsert_eq_one (db : GamesDB) (now : Nat) (sid p l : String)
    (t : Option String) (g st : String) (e : Option String)
    (h : countById db sid ≤ 1) :
    countById (upsert_active_session db now sid p l t g st e) sid = 1 := by
  unfold upsert_active_session
  by_cases hs : (db.sessions.find? (fun r => r.id == sid)).isSome = true
  · rw [if_pos hs,
      countById_map_of_id_preserved db _ (upsert_preserves_id now sid st e) sid]
    obtain ⟨r, hf⟩ := Option.isSome_iff_exists.mp hs
    exact Nat.le_antisymm h (one_le_countById_of_some db sid r hf)
  · rw [if_neg hs]
    have hf : db.sessions.find? (fun r => r.id == sid) = none := by
      cases hcase : db.sessions.find? (fun r => r.id == sid) with
      | none => rfl
      | some r => rw [hcase] at hs; exact absurd rfl hs
    unfold countById
    rw [List.countP_append]
    have hz := countById_eq_zero_of_none db sid hf
    unfold countById at hz
    rw [hz]
    simp [List.countP, List.countP.go]

theorem findById_upsert_self (db : GamesDB) (now : Nat) (sid p l : String)
    (t : Option String) (g st : String) (e : Option String) :
    ∃ r, findById (upsert_active_session db now sid p l t g st e) sid = some r ∧
      r.status = "active" ∧ r.state = st ∧ r.updated_at = now ∧ r.expires_at = e := by
  cases hf : findById db sid with
  | some r0 =>
    exact ⟨_, findById_upsert_conflict db now sid p l t g st e r0 hf,
      rfl, rfl, rfl, rfl⟩
  | none =>
    exact ⟨_, findById_upsert_fresh db now sid p l t g st e hf, rfl, rfl, rfl, rfl⟩

theorem threadMatch_iff (col q : Option String) :
    threadMatch col q = true ↔ col = q := by
  cases col <;> cases q <;>
    simp [threadMatch, sqlIsCmp, sqlEqCmp]

/-! ## Session scenarios -/

/-- A stored active session used as a concrete scenario row. -/
def sessRow1 : SessionRow :=
  ⟨"s1", "discord", "chan1", none, "wordle", "active", "stateA", 1, 1, none⟩

/-- A one-row sessions database. -/
def sessDB1 : GamesDB := ⟨[sessRow1]⟩

/-- Trace for the ended-session scenario: create, end, then upsert again. -/
def c5db1 : GamesDB :=
  upsert_active_session ⟨[]⟩ 1 "s1" "discord" "chan1" none "wordle" "stateA" none

/-- The trace state after `end_session` marked `"s1"` ended. -/
def c5db2 : GamesDB := end_session c5db1 2 "s1" "ended"

/-- The trace state after a later `upsert_active_session` reused id `"s1"`. -/
def c5db3 : GamesDB :=
  upsert_active_session c5db2 3 "s1" "discord" "chan1" none "wordle" "stateB" none

/-- The row of `c5db2`: session `"s1"` in status `"ended"`. -/
def c5rowEnded : SessionRow :=
  ⟨"s1", "discord", "chan1", none, "wordle", "ended", "stateA", 1, 2, none⟩

theorem end_active_state (db : GamesDB) (now : Nat) (p l : String)
    (t : Option String) (g st2 : String) :
    (end_active_in_location db now p l t g st2).1
      = { sessions := db.sessions.map (fun r =>
          if matchesScopeActive r p l t g then
            { r with status := st2, updated_at := now }
          else r) } := rfl

theorem matchesScopeActive_false_of_ended (r : SessionRow) (p l : String)
    (t : Option String) (g : String) (hst : r.status = "ended") :
    matchesScopeActive r p l t g = false := by
  have hsb : (("ended" : String) == "active") = false := by decide
  unfold matchesScopeActive
  rw [hst, hsb]
  simp

/-- Claim C10: when `upsert_active_session` is called with an id that already
has a row, only the `status`, `state`, `updated_at` and `expires_at` columns of
that row change; `platform`, `location_id`, `thread_id`, `game_key` and
`created_at` keep their stored values even when the call passes different
scope values. -/
theorem upsert_conflict_frame (db : GamesDB) (now : Nat) (sid p2 l2 : String)
    (t2 : Option String) (g2 st2 : String) (e2 : Option String) (r : SessionRow)
    (h : findById db sid = some r) :
    ∃ r', findById (upsert_active_session db now sid p2 l2 t2 g2 st2 e2) sid
        = some r' ∧
      r'.platform = r.platform ∧ r'.location_id = r.location_id ∧
      r'.thread_id = r.thread_id ∧ r'.game_key = r.game_key ∧
      r'.created_at = r.created_at ∧
      r'.status = "active" ∧ r'.state = st2 ∧ r'.updated_at = now ∧
      r'.expires_at = e2 :=
  ⟨_, findById_upsert_conflict db now sid p2 l2 t2 g2 st2 e2 r h,
    rfl, rfl, rfl, rfl, rfl, rfl, rfl, rfl, rfl⟩

/-- Claim C10 witness: a stored discord/wordle session updated by an upsert
passing a completely different scope keeps its stored scope and creation
time. -/
theorem upsert_conflict_frame_witness :
    ∃ r', findById (upsert_active_session sessDB1 5 "s1" "telegram" "chan9"
        (some "t9") "unscramble" "stateB" (some "2030-01-01")) "s1" = some r' ∧
      r'.platform = sessRow1.platform ∧ r'.location_id = sessRow1.location_id ∧
      r'.thread_id = sessRow1.thread_id ∧ r'.game_key = sessRow1.game_key ∧
      r'.created_at = sessRow1.created_at ∧
      r'.status = "active" ∧ r'.state = "stateB" ∧ r'.updated_at = 5 ∧
      r'.expires_at = some "2030-01-01" :=
  upsert_conflict_frame sessDB1 5 "s1" "telegram" "chan9" (some "t9")
    "unscramble" "stateB" (some "2030-01-01") sessRow1 (by decide)

/-- Claim C6: `upsert_active_session` is idempotent in `id`: starting from a
table with at most one row for the id (the PRIMARY KEY invariant), after two
calls with that id exactly one row with the id exists, and its `status` is
`active` with `state`, `updated_at`, `expires_at` from the latest call —
whether the first call inserted the row or the id already existed. -/
theorem upsert_idempotent_in_id (db : GamesDB) (now1 now2 : Nat) (sid : String)
    (p1 l1 : String) (t1 : Option String) (g1 st1 : String) (e1 : Option String)
    (p2 l2 : String) (t2 : Option String) (g2 st2 : String) (e2 : Option String)
    (h : countById db sid ≤ 1) :
    countById (upsert_active_session
        (upsert_active_session db now1 sid p1 l1 t1 g1 st1 e1)
        now2 sid p2 l2 t2 g2 st2 e2) sid = 1 ∧
    ∃ r, findById (upsert_active_session
        (upsert_active_session db now1 sid p1 l1 t1 g1 st1 e1)
        now2 sid p2 l2 t2 g2 st2 e2) sid = some r ∧
      r.status = "active" ∧ r.state = st2 ∧ r.updated_at = now2 ∧
      r.expires_at = e2 := by
  constructor
  · exact countById_upsert_eq_one _ now2 sid p2 l2 t2 g2 st2 e2
      (le_of_eq (countById_upsert_eq_one db now1 sid p1 l1 t1 g1 st1 e1 h))
  · exact findById_upsert_self _ now2 sid p2 l2 t2 g2 st2 e2

/-- Claim C6 witness: two upserts of id `"s1"` against the one-row database. -/
theorem upsert_idempotent_in_id_witness :
    countById (upsert_active_session
        (upsert_active_session sessDB1 4 "s1" "discord" "chan1" none "wordle" "st1" none)
        6 "s1" "discord" "chan1" none "wordle" "st2" none) "s1" = 1 ∧
    ∃ r, findById (upsert_active_session
        (upsert_active_session sessDB1 4 "s1" "discord" "chan1" none "wordle" "st1" none)
        6 "s1" "discord" "chan1" none "wordle" "st2" none) "s1" = some r ∧
      r.status = "active" ∧ r.state = "st2" ∧ r.updated_at = 6 ∧
      r.expires_at = none :=
  upsert_idempotent_in_id sessDB1 4 6 "s1" "discord" "chan1" none "wordle" "st1"
    none "discord" "chan1" none "wordle" "st2" none (by decide)

/-- Claim C7: `get_active_session` matches the scope columns with tri-state
thread matching (an absent query thread matches only rows with an absent
thread; a present one must equal the stored one), returns `none` when no
active session matches, and returns the unique matching active session when
exactly one exists. -/
theorem get_active_session_spec :
    (∀ col q : Option String, threadMatch col q = true ↔ col = q) ∧
    (∀ (db : GamesDB) (p l : String) (t : Option String) (g : String),
      (∀ r ∈ db.sessions, matchesScopeActive r p l t g = false) →
      get_active_session db p l t g = none) ∧
    (∀ (db : GamesDB) (p l : String) (t : Option String) (g : String)
        (s : SessionRow), s ∈ db.sessions →
      matchesScopeActive s p l t g = true →
      (∀ r ∈ db.sessions, matchesScopeActive r p l t g = true → r = s) →
      get_active_session db p l t g = some s ∧ s.status = "active" ∧
        s.platform = p ∧ s.location_id = l ∧ s.thread_id = t ∧
        s.game_key = g) := by
  refine ⟨threadMatch_iff, ?_, ?_⟩
  · intro db p l t g h
    unfold get_active_session
    rw [List.find?_eq_none]
    intro r hr
    simp [h r hr]
  · intro db p l t g s hs hm huniq
    have hfind : get_active_session db p l t g = some s := by
      unfold get_active_session
      cases hf : db.sessions.find? (fun r => matchesScopeActive r p l t g) with
      | none =>
        exact absurd hm (by simpa using List.find?_eq_none.mp hf s hs)
      | some r' =>
        have hr'm := List.mem_of_find?_eq_some hf
        have hr'p := List.find?_some hf
        rw [huniq r' hr'm hr'p]
    have hm' := hm
    unfold matchesScopeActive at hm'
    simp only [Bool.and_eq_true, beq_iff_eq] at hm'
    obtain ⟨⟨⟨⟨hp, hl⟩, ht⟩, hg⟩, hst⟩ := hm'
    exact ⟨hfind, hst, hp, hl, (threadMatch_iff _ _).mp ht, hg⟩

/-- Claim C7 witness: the one-row database holds a unique active wordle
session, and the matching query returns it. -/
theorem get_active_session_spec_witness :
    get_active_session sessDB1 "discord" "chan1" none "wordle" = some sessRow1 ∧
    sessRow1.status = "active" ∧ sessRow1.platform = "discord" ∧
    sessRow1.location_id = "chan1" ∧ sessRow1.thread_id = none ∧
    sessRow1.game_key = "wordle" :=
  get_active_session_spec.2.2 sessDB1 "discord" "chan1" none "wordle" sessRow1
    (by decide) (by decide) (by decide)

/-- Claim C5 counterexample: session `"s1"` is ended at `c5db2`, yet a later
`upsert_active_session` with the same id (`c5db3`) forces its status back to
`active` via `ON CONFLICT(id) DO UPDATE SET status = 'active'` — so the claim
that no Session Store operation leaves the ended status is false. -/
theorem ended_reactivated_counterexample :
    (findById c5db2 "s1").map SessionRow.status = some "ended" ∧
    (findById c5db3 "s1").map SessionRow.status = some "active" := by
  exact ⟨by decide, by decide⟩

/-- Claim C5 (amended): an ended session stays ended under `end_session` with
status `"ended"`, under `end_active_in_location` (any target status, since the
bulk update only touches active rows), and under `upsert_active_session` with a
different id; and it is never returned by `get_active_session`.  The one
exception the code allows is `upsert_active_session` with the same id, which
forces the session back to `active`. -/
theorem ended_terminal_except_upsert (db : GamesDB) (sid : String)
    (r : SessionRow) (h : findById db sid = some r) (hst : r.status = "ended") :
    (∀ (now : Nat) (sid2 : String),
      (findById (end_session db now sid2 "ended") sid).map SessionRow.status
        = some "ended") ∧
    (∀ (now : Nat) (p l : String) (t : Option String) (g st2 : String),
      (findById (end_active_in_location db now p l t g st2).1 sid).map
          SessionRow.status = some "ended") ∧
    (∀ (now : Nat) (sid2 p l : String) (t : Option String) (g st : String)
        (e : Option String), sid2 ≠ sid →
      (findById (upsert_active_session db now sid2 p l t g st e) sid).map
          SessionRow.status = some "ended") ∧
    (∀ (p l : String) (t : Option String) (g : String) (s : SessionRow),
      get_active_session db p l t g = some s → s.status = "active") := by
  have hfind : db.sessions.find? (fun r => r.id == sid) = some r := h
  have hid : r.id = sid := by simpa using List.find?_some hfind
  refine ⟨?_, ?_, ?_, ?_⟩
  · intro now sid2
    unfold end_session
    rw [findById_map_of_id_preserved db _
        (fun r => by by_cases hc : (r.id == sid2) = true <;> simp [hc]) sid, h]
    by_cases hc : r.id = sid2 <;> simp [hc, hst]
  · intro now p l t g st2
    rw [end_active_state,
      findById_map_of_id_preserved db _
        (fun r => by
          by_cases hc : matchesScopeActive r p l t g = true <;> simp [hc]) sid,
      h]
    simp [matchesScopeActive_false_of_ended r p l t g hst, hst]
  · intro now sid2 p l t g st e hne
    unfold upsert_active_session
    by_cases hs : (db.sessions.find? (fun r => r.id == sid2)).isSome = true
    · rw [if_pos hs,
        findById_map_of_id_preserved db _ (upsert_preserves_id now sid2 st e) sid,
        h]
      have hq : ¬ r.id = sid2 := by
        rw [hid]
        exact fun hcc => hne hcc.symm
      simp [hq, hst]
    · rw [if_neg hs]
      unfold findById
      rw [find?_append_of_some _ _ _ _ hfind]
      simp [hst]
  · intro p l t g s hgs
    have hp := List.find?_some
      (show db.sessions.find? (fun r => matchesScopeActive r p l t g) = some s
        from hgs)
    unfold matchesScopeActive at hp
    simp only [Bool.and_eq_true, beq_iff_eq] at hp
    exact hp.2

/-- Claim C5 witness: the amended terminality applied to the concrete trace
state `c5db2`, whose session `"s1"` is ended. -/
theorem ended_terminal_except_upsert_witness :
    (∀ (now : Nat) (sid2 : String),
      (findById (end_session c5db2 now sid2 "ended") "s1").map SessionRow.status
        = some "ended") ∧
    (∀ (now : Nat) (p l : String) (t : Option String) (g st2 : String),
      (findById (end_active_in_location c5db2 now p l t g st2).1 "s1").map
          SessionRow.status = some "ended") ∧
    (∀ (now : Nat) (sid2 p l : String) (t : Option String) (g st : String)
        (e : Option String), sid2 ≠ "s1" →
      (findById (upsert_active_session c5db2 now sid2 p l t g st e) "s1").map
          SessionRow.status = some "ended") ∧
    (∀ (p l : String) (t : Option String) (g : String) (s : SessionRow),
      get_active_session c5db2 p l t g = some s → s.status = "active") :=
  ended_terminal_except_upsert c5db2 "s1" c5rowEnded (by decide) rfl

/-! ## Coalescing scheduler (leaderboard_publisher.py lines 71-112) -/

/-- Debounce state of `LeaderboardPublisher`: the deadline of the pending
timer task, if one is live, and the instants at which a timer has fired
(each fired timer runs `refresh_now` once). -/
structure SchedState where
  pending : Option Nat
  fired : List Nat
deriving Repr, DecidableEq

/-- A pending timer whose deadline lies strictly before instant `t` has fired
by `t` (its runner woke from `asyncio.sleep` and ran `refresh_now`), so
`self._pending_task.done()` is true and the next call cancels nothing; a
deadline at or after `t` has not fired.  A deadline exactly at `t` is the
cancellation race the source resolves by cancelling (`cancel()` on a task
whose sleep just expired still suppresses the callback here). -/
def deliverPending (s : SchedState) (t : Nat) : SchedState :=
  match s.pending with
  | some d => if d < t then { pending := none, fired := s.fired ++ [d] } else s
  | none => s

/-- Embeds `LeaderboardPublisher.schedule_refresh` called at instant `t`:
cancel any not-yet-fired pending timer (`self._pending_task.cancel()`; the
runner exits on `CancelledError` without running `refresh_now`) and create a
fresh timer with deadline `t + D` (`asyncio.sleep(delay)` then
`refresh_now`). -/
def schedule_refresh (D : Nat) (s : SchedState) (t : Nat) : SchedState :=
  let s2 := deliverPending s t
  { pending := some (t + D), fired := s2.fired }

/-- Runs a whole call sequence (instants in arrival order) from the idle
state, then lets the final pending timer fire undisturbed. -/
def runCalls (D : Nat) (ts : List Nat) : SchedState :=
  let s := ts.foldl (schedule_refresh D) { pending := none, fired := [] }
  match s.pending with
  | some d => { pending := none, fired := s.fired ++ [d] }
  | none => s

theorem foldl_schedule_of_chain (D : Nat) :
    ∀ (ts : List Nat) (t0 : Nat) (acc : List Nat),
      List.Chain' (fun a b => a ≤ b ∧ b < a + D) (t0 :: ts) →
      ts.foldl (schedule_refresh D) { pending := some (t0 + D), fired := acc }
        = { pending := some (((t0 :: ts).getLastD 0) + D), fired := acc } := by
  intro ts
  induction ts with
  | nil =>
    intro t0 acc _
    rw [List.foldl_nil, List.getLastD_cons, List.getLastD_nil]
  | cons t1 rest ih =>
    intro t0 acc hch
    have h01 := (List.chain'_cons.mp hch).1
    have hrest := (List.chain'_cons.mp hch).2
    rw [List.foldl_cons]
    have hstep : schedule_refresh D { pending := some (t0 + D), fired := acc } t1
        = { pending := some (t1 + D), fired := acc } := by
      unfold schedule_refresh deliverPending
      have hnl : ¬ (t0 + D < t1) := Nat.not_lt.mpr (Nat.le_of_lt h01.2)
      simp [hnl]
    rw [hstep, ih t1 acc hrest, List.getLastD_cons 0 t0 (t1 :: rest),
      List.getLastD_cons 0 t1 rest, List.getLastD_cons t0 t1 rest]

/-- Claim C4: each `schedule_refresh` call arriving while a timer is still
pending cancels it — that timer never fires — and starts a fresh `D`-second
timer; hence a sequence of two or more calls, each arriving less than `D`
after the previous one, produces exactly one `refresh_now` execution, timed
`D` after the last call of the sequence. -/
theorem debounce_coalesces :
    (∀ (D : Nat) (s : SchedState) (t d : Nat),
      s.pending = some d → t ≤ d →
      schedule_refresh D s t = { pending := some (t + D), fired := s.fired }) ∧
    (∀ (D t1 t2 : Nat) (rest : List Nat),
      List.Chain' (fun a b => a ≤ b ∧ b < a + D) (t1 :: t2 :: rest) →
      (runCalls D (t1 :: t2 :: rest)).fired
        = [((t1 :: t2 :: rest).getLastD 0) + D]) := by
  constructor
  · intro D s t d hp ht
    unfold schedule_refresh deliverPending
    rw [hp]
    have hnl : ¬ (d < t) := Nat.not_lt.mpr ht
    simp [hnl]
  · intro D t1 t2 rest hch
    unfold runCalls
    rw [List.foldl_cons]
    have hstep : schedule_refresh D { pending := none, fired := [] } t1
        = { pending := some (t1 + D), fired := [] } := rfl
    rw [hstep, foldl_schedule_of_chain D (t2 :: rest) t1 [] hch,
      List.getLastD_cons 0 t1 (t2 :: rest)]
    rfl

/-- Claim C4 witness: three calls at instants 0, 3, 6 with a 10-second window
cancel each other's timers and fire exactly once, at instant 16. -/
theorem debounce_coalesces_witness :
    schedule_refresh 10 { pending := some 13, fired := [] } 6
      = { pending := some 16, fired := [] } ∧
    (runCalls 10 (0 :: 3 :: [6])).fired
      = [((0 :: 3 :: [6] : List Nat).getLastD 0) + 10] :=
  ⟨debounce_coalesces.1 10 { pending := some 13, fired := [] } 6 13 rfl
      (by decide),
   debounce_coalesces.2 10 0 3 [6] (by simp [List.chain'_cons])⟩

/-! ## refresh_now exception flow (leaderboard_publisher.py lines 96-154) -/

/-- The three exception types the `fetch_channel` call site catches:
`discord.Forbidden`, `discord.NotFound`, `discord.HTTPException`. -/
inductive ChannelFetchError
  | forbidden
  | notFound
  | httpError
deriving Repr, DecidableEq

/-- A resolved channel object; `isTextLike` is the
`isinstance(channel, (TextChannel, Thread))` test. -/
structure ChannelObj where
  isTextLike : Bool
deriving Repr, DecidableEq

/-- Environment of one `refresh_now` run: whether the bot is attached, what
`get_channel` returns from cache, what `fetch_channel` does (only the three
caught exception types arise there), and the outcomes of the downstream steps
`build_embed` and `_upsert_single_message`, each either succeeding or raising
(`Except.error` carries the exception message). -/
structure RefreshEnv where
  botSet : Bool
  cachedChannel : Option ChannelObj
  fetchedChannel : Except ChannelFetchError ChannelObj
  embedBuild : Except String Unit
  publishMessage : Except String (Option Nat)

/-- Embeds `LeaderboardPublisher.refresh_now` (lines 128-154), which runs
under `self._lock`: missing bot, unfetchable channel (the `except` clause
logs and returns) and non-text channel all return normally; after that,
`build_embed` and `_upsert_single_message` are awaited with no enclosing
`try`, so an exception there escapes `refresh_now` to its awaiter. -/
def refresh_now (env : RefreshEnv) : Except String Unit :=
  if env.botSet = false then Except.ok ()
  else
    match (match env.cachedChannel with
           | some c => some c
           | none =>
             match env.fetchedChannel with
             | Except.ok c => some c
             | Except.error _ => none) with
    | none => Except.ok ()
    | some c =>
      if c.isTextLike = false then Except.ok ()
      else
        match env.embedBuild with
        | Except.error e => Except.error e
        | Except.ok _ =>
          match env.publishMessage with
          | Except.error e => Except.error e
          | Except.ok _ => Except.ok ()

/-- Embeds the debounce `runner` body once its sleep ends (lines 96-105):
a cancelled task returns without refreshing, and any exception escaping
`refresh_now` is caught by the `except Exception` clause and logged, so the
coroutine always finishes normally. -/
def runner_fired (cancelled : Bool) (env : RefreshEnv) : Except String Unit :=
  if cancelled then Except.ok ()
  else
    match refresh_now env with
    | Except.ok _ => Except.ok ()
    | Except.error _ => Except.ok ()

/-- An environment where the bot and channel are healthy but `build_embed`
raises (for instance a Store error while reading the leaderboard). -/
def envEmbedRaises : RefreshEnv :=
  { botSet := true, cachedChannel := some ⟨true⟩,
    fetchedChannel := Except.ok ⟨true⟩,
    embedBuild := Except.error "db error in build_embed",
    publishMessage := Except.ok (some 1) }

/-- An environment where only the channel fetch fails, with one of the three
caught exception types. -/
def envFetchFails : RefreshEnv :=
  { botSet := true, cachedChannel := none,
    fetchedChannel := Except.error ChannelFetchError.notFound,
    embedBuild := Except.ok (),
    publishMessage := Except.ok none }

/-- Claim C9 counterexample: on the direct-invocation path (the admin command
awaits `refresh_now` itself), an exception raised by the downstream
`build_embed` step is not caught inside `refresh_now` — it propagates to the
caller, refuting the claim that both paths swallow every downstream
exception. -/
theorem refresh_now_propagates_counterexample :
    refresh_now envEmbedRaises = Except.error "db error in build_embed" := rfl

/-- Claim C9 (amended): exceptions escaping `refresh_now` are caught and
logged on the timer-fired path (the debounce runner always completes
normally, with no retry); on the direct-invocation path only channel-fetch
failures are caught, while an exception from `build_embed` propagates to the
caller; and a later `schedule_refresh` schedules a fresh timer regardless of
any earlier outcome. -/
theorem refresh_failure_policy :
    (∀ (c : Bool) (env : RefreshEnv), runner_fired c env = Except.ok ()) ∧
    (∀ env : RefreshEnv, env.botSet = true → env.cachedChannel = none →
      (∃ fe, env.fetchedChannel = Except.error fe) →
      refresh_now env = Except.ok ()) ∧
    (∀ (env : RefreshEnv) (e : String) (ch : ChannelObj),
      env.botSet = true → env.cachedChannel = some ch → ch.isTextLike = true →
      env.embedBuild = Except.error e →
      refresh_now env = Except.error e) ∧
    (∀ (D : Nat) (s : SchedState) (t : Nat),
      (schedule_refresh D s t).pending = some (t + D)) := by
  refine ⟨?_, ?_, ?_, ?_⟩
  · intro c env
    cases c with
    | true => rfl
    | false =>
      unfold runner_fired
      cases h : refresh_now env <;> simp [h]
  · intro env hbot hcache ⟨fe, hfe⟩
    simp [refresh_now, hbot, hcache, hfe]
  · intro env e ch hbot hch htext hembed
    simp [refresh_now, hbot, hch, htext, hembed]
  · intro D s t
    rfl

/-- Claim C9 witness: the policy applied to the concrete failing and
fetch-failing environments and to a concrete scheduler state. -/
theorem refresh_failure_policy_witness :
    runner_fired false envEmbedRaises = Except.ok () ∧
    refresh_now envFetchFails = Except.ok () ∧
    refresh_now envEmbedRaises = Except.error "db error in build_embed" ∧
    (schedule_refresh 10 { pending := none, fired := [] } 3).pending
      = some 13 :=
  ⟨refresh_failure_policy.1 false envEmbedRaises,
   refresh_failure_policy.2.1 envFetchFails rfl rfl ⟨ChannelFetchError.notFound, rfl⟩,
   refresh_failure_policy.2.2.1 envEmbedRaises "db error in build_embed" ⟨true⟩
     rfl rfl rfl rfl,
   refresh_failure_policy.2.2.2 10 { pending := none, fired := [] } 3⟩
